import Mathlib

/-!
Verification of the tg-translator-bot relay worker (src/index.js, schema.sql)
against its specification.

The JavaScript source is shallowly embedded: Telegram Bot API calls become
trace events whose outcomes are supplied by an oracle, the D1 database becomes
explicit lists of rows, and JavaScript strings become Lean `String`s
(character-indexed, which coincides with `.length`/`.substring` on the texts
involved).  A rejected `fetch` (a thrown exception) is `Except.error`; a
parsed JSON response, which may still carry `ok: false`, is `Except.ok`.
-/

namespace TgBot

/-- `DEFAULT_LANG` (declared in the source, never applied). -/
def DEFAULT_LANG : String := "en"

/-- `SUPPORTED_LANGS`, in declaration order. -/
def SUPPORTED_LANGS : List (String × String) :=
  [("zh", "Chinese"), ("en", "English"), ("ja", "Japanese"), ("ru", "Russian")]

/-- `SUPPORTED_LANGS[code]` (`none` models `undefined` when the key is absent). -/
def lookupLang (code : String) : Option String :=
  (SUPPORTED_LANGS.find? (fun p => p.1 == code)).map (fun p => p.2)

/-- JavaScript `String.prototype.startsWith`. -/
def jsStartsWith (s p : String) : Bool :=
  p.data.isPrefixOf s.data

/-- JavaScript truthiness of a nullable string: `null`/`undefined` and the
empty string are falsy. -/
def jsTruthy : Option String → Bool
  | none => false
  | some s => !(s == "")

/-- JavaScript `String.prototype.split` with a single-character separator:
always returns at least one (possibly empty) segment. -/
def jsSplit (sep : Char) : List Char → List (List Char)
  | [] => [[]]
  | c :: cs =>
    match jsSplit sep cs with
    | [] => [[]]
    | seg :: rest =>
      if c = sep then [] :: seg :: rest else (c :: seg) :: rest

/-- `data.split('_')[1]`: the segment after the first underscore (always
present when the data starts with `lang_`). -/
def extractLangCode (data : String) : String :=
  ⟨(jsSplit '_' data.data).getD 1 []⟩

/-- A Telegram user object as read by the worker (`id`, `username`,
`first_name`). -/
structure TgUser where
  id : Int
  username : Option String
  first_name : String
deriving DecidableEq, Repr

/-- One row of the `users` table (schema.sql). -/
structure UserRow where
  user_id : Int
  username : Option String
  first_name : String
  is_verified : Bool
  language : Option String
  is_blocked : Bool
  blocked_at : Option String
  created_at : Nat
deriving DecidableEq, Repr

/-- One row of the `messages` table (schema.sql).  The index
`idx_messages_admin_msg_id` on `admin_message_id` is not declared UNIQUE. -/
structure MessageMapping where
  admin_message_id : Int
  user_id : Int
  guest_message_id : Int
  created_at : Nat
deriving DecidableEq, Repr

/-- The two D1 tables. -/
structure DB where
  users : List UserRow
  messages : List MessageMapping
deriving DecidableEq, Repr

/-- `SELECT * FROM users WHERE user_id = ?` followed by `.first()`. -/
def getUser (users : List UserRow) (userId : Int) : Option UserRow :=
  users.find? (fun r => r.user_id == userId)

/-- The value `upsertUser` hands back to its caller: `{ is_new: true }` for a
fresh row, otherwise the row as it existed before any profile update. -/
inductive UpsertResult where
  | isNew
  | existing (row : UserRow)
deriving DecidableEq, Repr

/-- `dbUser.is_blocked`: `undefined`, hence falsy, on `{ is_new: true }`. -/
def UpsertResult.is_blocked : UpsertResult → Bool
  | .isNew => false
  | .existing row => row.is_blocked

/-- `dbUser.is_verified`: `undefined`, hence falsy, on `{ is_new: true }`. -/
def UpsertResult.is_verified : UpsertResult → Bool
  | .isNew => false
  | .existing row => row.is_verified

/-- `dbUser.language`: `undefined` on `{ is_new: true }`. -/
def UpsertResult.language : UpsertResult → Option String
  | .isNew => none
  | .existing row => row.language

/-- `upsertUser(db, user)`: insert a fresh row (`is_verified`/`is_blocked`
default to 0 and `language` to NULL per the schema) or update drifted profile
fields, returning the pre-update row. -/
def upsertUser (users : List UserRow) (user : TgUser) (now : Nat) :
    List UserRow × UpsertResult :=
  match getUser users user.id with
  | none =>
    (users ++ [{ user_id := user.id, username := user.username,
                 first_name := user.first_name, is_verified := false,
                 language := none, is_blocked := false, blocked_at := none,
                 created_at := now }], .isNew)
  | some existing =>
    if existing.username != user.username || existing.first_name != user.first_name then
      (users.map (fun r => if r.user_id == user.id then
          { r with username := user.username, first_name := user.first_name } else r),
       .existing existing)
    else
      (users, .existing existing)

/-- `saveMessageMapping`: `INSERT INTO messages (admin_message_id, user_id,
guest_message_id, created_at) VALUES (?, ?, ?, ?)`.  The table has no
uniqueness constraint on `admin_message_id`, so the insert always succeeds,
appending a row in rowid order. -/
def saveMessageMapping (messages : List MessageMapping)
    (adminMsgId userId guestMsgId : Int) (now : Nat) : List MessageMapping :=
  messages ++ [{ admin_message_id := adminMsgId, user_id := userId,
                 guest_message_id := guestMsgId, created_at := now }]

/-- `getOriginalSender`: `SELECT user_id, guest_message_id FROM messages WHERE
admin_message_id = ?` followed by `.first()` — the first matching row in
insertion (rowid) order, or `none` for an empty result. -/
def getOriginalSender (messages : List MessageMapping) (adminMsgId : Int) :
    Option (Int × Int) :=
  (messages.find? (fun m => m.admin_message_id == adminMsgId)).map
    (fun m => (m.user_id, m.guest_message_id))

/-- `UPDATE users SET is_verified = 1 WHERE user_id = ?`. -/
def setVerified (users : List UserRow) (userId : Int) : List UserRow :=
  users.map (fun r => if r.user_id == userId then { r with is_verified := true } else r)

/-- `UPDATE users SET language = ? WHERE user_id = ?`. -/
def setLanguage (users : List UserRow) (userId : Int) (code : String) : List UserRow :=
  users.map (fun r => if r.user_id == userId then { r with language := some code } else r)

/-- An inline keyboard button, `{ text, callback_data }`. -/
structure InlineButton where
  text : String
  callback_data : String
deriving DecidableEq, Repr

/-- One outbound Telegram Bot API call, with the payload fields the worker
sets (`parse_mode` is presentational and carries no content). -/
inductive TgCall where
  | sendMessage (chat_id : Int) (text : String)
      (reply_markup : Option (List (List InlineButton)))
      (reply_to_message_id : Option Int)
  | copyMessage (chat_id : Int) (from_chat_id : Int) (message_id : Int)
      (caption : Option String)
  | answerCallbackQuery (callback_query_id : String) (text : String)
  | editMessageText (chat_id : Int) (message_id : Int) (text : String)
deriving DecidableEq, Repr

/-- The parsed JSON body of a Telegram response: `ok`, the `message_id` of
`result` when a message object is present, and `description`. -/
structure TgResponse where
  ok : Bool
  result : Option Int
  description : String
deriving DecidableEq, Repr

/-- Outcome of awaiting one `callTelegram`: `Except.error` is a rejected
`fetch` (thrown past the await); `Except.ok` is the parsed response, which may
still carry `ok: false`. -/
abbrev TgOutcome := Except String TgResponse

/-- The behavior of the Telegram Bot API during one unit of work. -/
abbrev Oracle := TgCall → TgOutcome

/-- One observable step of a handler: an attempted Telegram call, or an
invocation of the translation adapter. -/
inductive Event where
  | tg (call : TgCall)
  | translateRequest (text : String) (targetLang : String)
deriving DecidableEq, Repr

/-- The chat an outbound call delivers content to (callback answers target no
chat). -/
def TgCall.chatTarget : TgCall → Option Int
  | .sendMessage chat_id _ _ _ => some chat_id
  | .copyMessage chat_id _ _ _ => some chat_id
  | .answerCallbackQuery _ _ => none
  | .editMessageText chat_id _ _ => some chat_id

/-- The chat a trace event delivers content to, if any. -/
def Event.target : Event → Option Int
  | .tg call => call.chatTarget
  | .translateRequest _ _ => none

/-- Environment bindings and the behavior of the external translation
service: `translationService text target` is the content the SiliconFlow call
would produce (`none` models a thrown fetch error or a response without
content). -/
structure Env where
  ADMIN_USER_ID : Int
  SILICONFLOW_API_KEY : Option String
  translationService : String → String → Option String
  now : Nat

/-- `translateText(text, targetLang, env)`: with no API key configured the
text is returned unchanged; otherwise the service result, falling back to the
original text when the call throws or returns no content. -/
def translateText (text targetLang : String) (env : Env) : String :=
  match env.SILICONFLOW_API_KEY with
  | none => text
  | some _ =>
    match env.translationService text targetLang with
    | some content => content
    | none => text

/-- An inbound `message` event (the fields the worker reads).  The six media
flags model the presence of the `photo`/`video`/`document`/`voice`/`audio`/
`animation` payloads. -/
structure Message where
  message_id : Int
  from_user : TgUser
  chat_id : Int
  text : Option String
  caption : Option String
  photo : Bool
  video : Bool
  document : Bool
  voice : Bool
  audio : Bool
  animation : Bool
  reply_to_message_id : Option Int
deriving DecidableEq, Repr

/-- `message.photo || message.video || message.document || message.voice ||
message.audio || message.animation`. -/
def Message.isMedia (m : Message) : Bool :=
  m.photo || m.video || m.document || m.voice || m.audio || m.animation

/-- An inbound `callback_query` event: its id, sender, opaque data string and
the id of the message whose controls were activated. -/
structure CallbackQuery where
  id : String
  from_user : TgUser
  data : String
  message_message_id : Int
deriving DecidableEq, Repr

/-- Result of processing one inbound event: the final database, the calls
attempted in order (translation requests included), and the exception that
escaped to the webhook handler, if any. -/
structure HandlerResult where
  db : DB
  trace : List Event
  err : Option String
deriving Repr

/-- The uncaught exception produced by awaiting a call whose outcome is not
otherwise inspected. -/
def callErr (o : TgOutcome) : Option String :=
  match o with
  | .error e => some e
  | .ok _ => none

/-- The correlation header prepended to every relayed guest message. -/
def relayHeader (user : TgUser) (language : String) : String :=
  "📩 <b>New Message</b>\nFrom: <a href=\"tg://user?id=" ++ toString user.id ++
  "\">" ++ user.first_name ++ "</a> (" ++ toString user.id ++ ")\nLang: " ++ language

/-- The media-caption construction: `header\n\n` plus the existing caption,
then `substring(0, 1021) + '...'` when the result exceeds the 1024-character
Telegram caption limit. -/
def buildCaption (header : String) (caption : Option String) : String :=
  let newCaption := header ++ "\n\n" ++ caption.getD ""
  if newCaption.length > 1024 then ⟨newCaption.data.take 1021⟩ ++ "..." else newCaption

/-- Rows-of-two grouping of the language buttons (`buttons.slice(i, i + 2)`
with `i += 2`). -/
def chunkPairs {α : Type} : List α → List (List α)
  | [] => []
  | [a] => [[a]]
  | a :: b :: rest => [a, b] :: chunkPairs rest

/-- The `sendMessage` call issued by `sendLanguageSelection`. -/
def languageSelectionCall (chatId : Int) : TgCall :=
  .sendMessage chatId "Please select your language / 请选择语言:"
    (some (chunkPairs (SUPPORTED_LANGS.map (fun p => ⟨p.2, "lang_" ++ p.1⟩))))
    none

/-- `handleStart`: upsert the user, then prompt according to the current
onboarding state.  The `is_blocked` flag is not consulted here. -/
def handleStart (env : Env) (oracle : Oracle) (db : DB) (message : Message) :
    HandlerResult :=
  let user := message.from_user
  let users1 := (upsertUser db.users user env.now).1
  let db1 : DB := { db with users := users1 }
  match getUser users1 user.id with
  | none =>
    -- unreachable: the upsert guarantees a row for `user.id`
    { db := db1, trace := [], err := some "TypeError" }
  | some userData =>
    if !userData.is_verified then
      let call : TgCall := .sendMessage user.id
        "Please verify you are human by clicking the button below."
        (some [[⟨"✅ I am Human", "verify_human"⟩]]) none
      { db := db1, trace := [.tg call], err := callErr (oracle call) }
    else if !(jsTruthy userData.language) then
      let call := languageSelectionCall user.id
      { db := db1, trace := [.tg call], err := callErr (oracle call) }
    else
      let call : TgCall := .sendMessage user.id
        "Welcome! You can send me messages and I will forward them to the admin."
        none none
      { db := db1, trace := [.tg call], err := callErr (oracle call) }

/-- `handleCallback`: `verify_human` marks the user verified (the database
write precedes every outbound call) and re-displays the language prompt;
`lang_*` stores the extracted code.  The `is_blocked` flag is not consulted. -/
def handleCallback (env : Env) (oracle : Oracle) (db : DB) (cb : CallbackQuery) :
    HandlerResult :=
  let user := cb.from_user
  if cb.data == "verify_human" then
    let db1 : DB := { db with users := setVerified db.users user.id }
    let ack : TgCall := .answerCallbackQuery cb.id "Verified!"
    match oracle ack with
    | .error e => { db := db1, trace := [.tg ack], err := some e }
    | .ok _ =>
      let edit : TgCall := .editMessageText user.id cb.message_message_id
        "✅ Verified successfully. Now please select your language."
      match oracle edit with
      | .error e => { db := db1, trace := [.tg ack, .tg edit], err := some e }
      | .ok _ =>
        let sel := languageSelectionCall user.id
        { db := db1, trace := [.tg ack, .tg edit, .tg sel], err := callErr (oracle sel) }
  else if jsStartsWith cb.data "lang_" then
    let langCode := extractLangCode cb.data
    let db1 : DB := { db with users := setLanguage db.users user.id langCode }
    let ack : TgCall := .answerCallbackQuery cb.id ("Language set to " ++ langCode)
    match oracle ack with
    | .error e => { db := db1, trace := [.tg ack], err := some e }
    | .ok _ =>
      let edit : TgCall := .editMessageText user.id cb.message_message_id
        ("✅ Language set to " ++ (lookupLang langCode).getD langCode ++
         ". You can now send messages.")
      { db := db1, trace := [.tg ack, .tg edit], err := callErr (oracle edit) }
  else
    { db := db, trace := [], err := none }

/-- `if (sentMsg) { await saveMessageMapping(...) }` — the final step of the
guest relay. -/
def recordIfSent (env : Env) (db : DB) (trace : List Event) (sentMsg : Option Int)
    (userId guestMsgId : Int) : HandlerResult :=
  match sentMsg with
  | some adminMsgId =>
    { db := { db with
        messages := saveMessageMapping db.messages adminMsgId userId guestMsgId env.now },
      trace := trace, err := none }
  | none => { db := db, trace := trace, err := none }

/-- The forward-to-admin step of `handlePrivateMessage`: deliver the payload
(text with an appended translation block when the guest language is not
`zh`, media with the rebuilt caption, or header followed by a bare copy) and
record the mapping when the delivery response carries a message. -/
def relayToAdmin (env : Env) (oracle : Oracle) (db : DB) (message : Message)
    (header lang : String) : HandlerResult :=
  let adminId := env.ADMIN_USER_ID
  let user := message.from_user
  if jsTruthy message.text then
    let originalText := message.text.getD ""
    -- `finalText` starts as header + original and the translation branch
    -- appends the labeled block; the branch also invokes the adapter
    let finalText :=
      if lang != "zh" then
        header ++ "\n\n" ++ originalText ++ "\n\n<b>Translation:</b>\n" ++
          translateText originalText "Chinese" env
      else
        header ++ "\n\n" ++ originalText
    let preTrace : List Event :=
      if lang != "zh" then [Event.translateRequest originalText "Chinese"] else []
    let call : TgCall := .sendMessage adminId finalText none none
    match oracle call with
    | .error e => { db := db, trace := preTrace ++ [.tg call], err := some e }
    | .ok resp =>
      recordIfSent env db (preTrace ++ [.tg call]) resp.result user.id message.message_id
  else if message.isMedia then
    let newCaption := buildCaption header message.caption
    let call : TgCall := .copyMessage adminId user.id message.message_id (some newCaption)
    match oracle call with
    | .error e => { db := db, trace := [.tg call], err := some e }
    | .ok resp => recordIfSent env db [.tg call] resp.result user.id message.message_id
  else
    let headerCall : TgCall := .sendMessage adminId header none none
    match oracle headerCall with
    | .error e => { db := db, trace := [.tg headerCall], err := some e }
    | .ok _ =>
      let copy : TgCall := .copyMessage adminId user.id message.message_id none
      match oracle copy with
      | .error e => { db := db, trace := [.tg headerCall, .tg copy], err := some e }
      | .ok resp =>
        recordIfSent env db [.tg headerCall, .tg copy] resp.result user.id message.message_id

/-- `handlePrivateMessage`: admin replies are routed back through the
correlation table; guest messages are gated on `is_blocked` / `is_verified` /
`language` and then relayed to the admin under the correlation header. -/
def handlePrivateMessage (env : Env) (oracle : Oracle) (db : DB) (message : Message) :
    HandlerResult :=
  let user := message.from_user
  let adminId := env.ADMIN_USER_ID
  if user.id == adminId then
    -- 1. Admin sent a message
    match message.reply_to_message_id with
    | none => { db := db, trace := [], err := none }
    | some replyId =>
      match getOriginalSender db.messages replyId with
      | some (origUserId, _) =>
        let copy : TgCall := .copyMessage origUserId message.chat_id message.message_id none
        match oracle copy with
        | .ok _ =>
          -- the response body is not inspected: proceed to the acknowledgment
          let ack : TgCall := .sendMessage adminId "✅ Reply sent." none (some message.message_id)
          match oracle ack with
          | .ok _ => { db := db, trace := [.tg copy, .tg ack], err := none }
          | .error e =>
            -- the try block failed at the acknowledgment: the catch still runs
            let fail : TgCall := .sendMessage adminId ("❌ Failed to send: " ++ e)
              none (some message.message_id)
            { db := db, trace := [.tg copy, .tg ack, .tg fail], err := callErr (oracle fail) }
        | .error e =>
          let fail : TgCall := .sendMessage adminId ("❌ Failed to send: " ++ e)
            none (some message.message_id)
          { db := db, trace := [.tg copy, .tg fail], err := callErr (oracle fail) }
      | none =>
        let notice : TgCall := .sendMessage adminId
          "⚠️ Could not find original sender for this message (maybe too old)."
          none (some message.message_id)
        { db := db, trace := [.tg notice], err := callErr (oracle notice) }
  else
    -- 2. Guest sent a message
    let up := upsertUser db.users user env.now
    let dbUser := up.2
    let db1 : DB := { db with users := up.1 }
    if dbUser.is_blocked then
      { db := db1, trace := [], err := none }
    else if !dbUser.is_verified then
      let call : TgCall := .sendMessage user.id "Please verify you are human first."
        (some [[⟨"✅ Verify", "verify_human"⟩]]) none
      { db := db1, trace := [.tg call], err := callErr (oracle call) }
    else if !(jsTruthy dbUser.language) then
      let call := languageSelectionCall user.id
      { db := db1, trace := [.tg call], err := callErr (oracle call) }
    else
      -- the truthiness check guarantees a non-empty stored language
      let lang := dbUser.language.getD ""
      let header := relayHeader user lang
      relayToAdmin env oracle db1 message header lang

/-- An inbound webhook update. -/
inductive Update where
  | message (m : Message)
  | callback_query (c : CallbackQuery)
deriving DecidableEq, Repr

/-- The sender of an inbound update. -/
def Update.sender : Update → TgUser
  | .message m => m.from_user
  | .callback_query c => c.from_user

/-- The webhook dispatch: texts starting with `/start` go to `handleStart`,
all other messages to `handlePrivateMessage`, callback queries to
`handleCallback`. -/
def processUpdate (env : Env) (oracle : Oracle) (db : DB) (u : Update) :
    HandlerResult :=
  match u with
  | .message m =>
    match m.text with
    | some t =>
      if jsStartsWith t "/start" then handleStart env oracle db m
      else handlePrivateMessage env oracle db m
    | none => handlePrivateMessage env oracle db m
  | .callback_query c => handleCallback env oracle db c

/-! ## Helper lemmas -/

theorem find?_append_of_none {α : Type} (p : α → Bool) (l₁ l₂ : List α)
    (h : l₁.find? p = none) : (l₁ ++ l₂).find? p = l₂.find? p := by
  simp [List.find?_append, h]

theorem mappings_find?_none (messages : List MessageMapping) (relayId : Int)
    (h : ∀ mm ∈ messages, mm.admin_message_id ≠ relayId) :
    messages.find? (fun m => m.admin_message_id == relayId) = none := by
  rw [List.find?_eq_none]
  intro mm hmm
  simpa using h mm hmm

/-! ## C2: correlation round-trip -/

/-- C2.  Correlation round-trip: recording a mapping under a relay id that is
not yet present and resolving that id returns exactly the recorded
`(userId, originalMessageId)` pair, and resolving an id for which no mapping
was ever recorded returns the empty result. -/
theorem correlation_roundtrip (messages : List MessageMapping)
    (relayId userId guestMsgId : Int) (now : Nat)
    (hfresh : ∀ mm ∈ messages, mm.admin_message_id ≠ relayId) :
    getOriginalSender (saveMessageMapping messages relayId userId guestMsgId now) relayId
      = some (userId, guestMsgId) ∧
    getOriginalSender messages relayId = none := by
  have hnone := mappings_find?_none messages relayId hfresh
  constructor
  · unfold getOriginalSender saveMessageMapping
    rw [find?_append_of_none _ _ _ hnone]
    simp [List.find?]
  · unfold getOriginalSender
    rw [hnone]
    rfl

/-- Witness for C2 at a concrete store. -/
theorem correlation_roundtrip_witness :
    getOriginalSender (saveMessageMapping [] 100 7 42 0) 100 = some (7, 42) ∧
    getOriginalSender ([] : List MessageMapping) 100 = none :=
  correlation_roundtrip [] 100 7 42 0 (by simp)

/-! ## C5: uniqueness of the correlation key -/

/-- C5 counterexample.  The `messages` table enforces no uniqueness on
`admin_message_id` (its index is non-unique), so recording the same relay id
twice succeeds and stores two distinct mappings sharing that key — there is
no `DuplicateKey` failure. -/
theorem duplicate_relay_key_cex :
    (⟨100, 7, 42, 0⟩ : MessageMapping) ∈
        saveMessageMapping (saveMessageMapping [] 100 7 42 0) 100 8 43 1 ∧
    (⟨100, 8, 43, 1⟩ : MessageMapping) ∈
        saveMessageMapping (saveMessageMapping [] 100 7 42 0) 100 8 43 1 ∧
    (⟨100, 7, 42, 0⟩ : MessageMapping) ≠ (⟨100, 8, 43, 1⟩ : MessageMapping) ∧
    (⟨100, 7, 42, 0⟩ : MessageMapping).admin_message_id =
      (⟨100, 8, 43, 1⟩ : MessageMapping).admin_message_id := by
  refine ⟨?_, ?_, ?_, rfl⟩ <;> decide

/-- C5 amended.  `record` inserts unconditionally: recording a relay id for
which mappings already exist succeeds and increases the number of stored
mappings with that key by one, rather than failing with `DuplicateKey`. -/
theorem record_allows_duplicate_keys (messages : List MessageMapping)
    (relayId userId guestMsgId : Int) (now : Nat) :
    ((saveMessageMapping messages relayId userId guestMsgId now).filter
        (fun m => m.admin_message_id == relayId)).length
      = (messages.filter (fun m => m.admin_message_id == relayId)).length + 1 := by
  unfold saveMessageMapping
  simp [List.filter_append]

/-! ## C6: caption truncation -/

/-- C6.  For every relayed media message: when the concatenation of header
and original caption exceeds the 1024-character caption limit, the caption
delivered to the admin is truncated to at most 1024 characters and ends in
`...`; otherwise the concatenation is delivered unmodified. -/
theorem caption_truncation (header : String) (caption : Option String) :
    ((header ++ "\n\n" ++ caption.getD "").length > 1024 →
      (buildCaption header caption).length ≤ 1024 ∧
      ∃ p, buildCaption header caption = p ++ "...") ∧
    ((header ++ "\n\n" ++ caption.getD "").length ≤ 1024 →
      buildCaption header caption = header ++ "\n\n" ++ caption.getD "") := by
  constructor
  · intro hgt
    unfold buildCaption
    rw [if_pos hgt]
    constructor
    · show ((header ++ "\n\n" ++ caption.getD "").data.take 1021 ++ "...".data).length ≤ 1024
      rw [List.length_append, List.length_take]
      have h3 : ("...".data).length = 3 := rfl
      rw [h3]
      have h1 := min_le_left 1021 (header ++ "\n\n" ++ caption.getD "").data.length
      omega
    · exact ⟨⟨(header ++ "\n\n" ++ caption.getD "").data.take 1021⟩, rfl⟩
  · intro hle
    unfold buildCaption
    rw [if_neg (by omega)]

/-- Witness for C6 at a concrete over-long caption. -/
theorem caption_truncation_witness :
    (buildCaption "" (some ⟨List.replicate 1100 'a'⟩)).length ≤ 1024 ∧
    ∃ p, buildCaption "" (some ⟨List.replicate 1100 'a'⟩) = p ++ "..." :=
  (caption_truncation "" (some ⟨List.replicate 1100 'a'⟩)).1 (by
    show ("" ++ "\n\n" ++ (⟨List.replicate 1100 'a'⟩ : String)).data.length > 1024
    rw [show ("" ++ "\n\n" ++ (⟨List.replicate 1100 'a'⟩ : String)).data
        = "\n\n".data ++ List.replicate 1100 'a' from rfl,
      List.length_append, List.length_replicate]
    have h2 : ("\n\n".data).length = 2 := rfl
    rw [h2]
    omega)

/-! ## jsSplit lemmas (for C9, C10) -/

theorem jsSplit_cons (sep c : Char) (cs : List Char) :
    jsSplit sep (c :: cs) =
      match jsSplit sep cs with
      | [] => [[]]
      | seg :: rest => if c = sep then [] :: seg :: rest else (c :: seg) :: rest := rfl

theorem jsSplit_ne_nil (sep : Char) (l : List Char) : jsSplit sep l ≠ [] := by
  cases l with
  | nil => simp [jsSplit]
  | cons c cs =>
    rw [jsSplit_cons]
    cases h : jsSplit sep cs with
    | nil => simp
    | cons seg rest => by_cases hc : c = sep <;> simp [hc]

theorem jsSplit_of_not_mem (sep : Char) (l : List Char) (h : sep ∉ l) :
    jsSplit sep l = [l] := by
  induction l with
  | nil => rfl
  | cons c cs ih =>
    have hc : c ≠ sep := by rintro rfl; exact h (List.mem_cons_self _ _)
    have hcs : sep ∉ cs := fun hm => h (List.mem_cons_of_mem _ hm)
    rw [jsSplit_cons, ih hcs]
    simp [hc]

theorem jsSplit_append (sep : Char) (l t : List Char) (h : sep ∉ l) :
    jsSplit sep (l ++ sep :: t) = l :: jsSplit sep t := by
  induction l with
  | nil =>
    rw [List.nil_append, jsSplit_cons]
    cases ht : jsSplit sep t with
    | nil => exact absurd ht (jsSplit_ne_nil sep t)
    | cons seg rest => simp
  | cons c cs ih =>
    have hc : c ≠ sep := by rintro rfl; exact h (List.mem_cons_self _ _)
    have hcs : sep ∉ cs := fun hm => h (List.mem_cons_of_mem _ hm)
    rw [List.cons_append, jsSplit_cons, ih hcs]
    simp [hc]

theorem extractLangCode_plain (code : String) (h : '_' ∉ code.data) :
    extractLangCode ("lang_" ++ code) = code := by
  unfold extractLangCode
  have hdata : ("lang_" ++ code).data = ['l','a','n','g'] ++ '_' :: code.data := rfl
  rw [hdata, jsSplit_append _ _ _ (by decide), jsSplit_of_not_mem _ _ h]
  rfl

theorem extractLangCode_underscore (x y : String) (hx : '_' ∉ x.data) :
    extractLangCode ("lang_" ++ (x ++ "_" ++ y)) = x := by
  unfold extractLangCode
  have hdata : ("lang_" ++ (x ++ "_" ++ y)).data
      = ['l','a','n','g'] ++ '_' :: (x.data ++ '_' :: y.data) := by
    show "lang_".data ++ ((x.data ++ ['_']) ++ y.data) = _
    rw [List.append_assoc]
    rfl
  rw [hdata, jsSplit_append _ _ _ (by decide), jsSplit_append _ _ _ hx]
  rfl

theorem jsStartsWith_append (p s : String) : jsStartsWith (p ++ s) p = true := by
  unfold jsStartsWith
  show (p.data.isPrefixOf (p.data ++ s.data)) = true
  simp [List.isPrefixOf_iff_prefix]

/-! ## user-table update lemmas (for C7, C9, C10) -/

theorem setVerified_stored (users : List UserRow) (uid : Int) :
    ∀ row ∈ setVerified users uid, row.user_id = uid → row.is_verified = true := by
  intro row hrow hid
  unfold setVerified at hrow
  obtain ⟨a, ha, hfa⟩ := List.mem_map.mp hrow
  subst hfa
  by_cases h : a.user_id = uid
  · simp [h]
  · simp only [beq_iff_eq, h, if_false] at hid

theorem setVerified_idem (users : List UserRow) (uid : Int) :
    setVerified (setVerified users uid) uid = setVerified users uid := by
  unfold setVerified
  rw [List.map_map]
  apply List.map_congr_left
  intro a _
  by_cases h : a.user_id = uid <;> simp [h]

theorem setVerified_preserves (users : List UserRow) (uid : Int) :
    ∀ row ∈ users, ∃ row' ∈ setVerified users uid,
      row'.user_id = row.user_id ∧ row'.language = row.language ∧
      (row.is_verified = true → row'.is_verified = true) := by
  intro row hrow
  by_cases h : row.user_id = uid
  · refine ⟨{ row with is_verified := true }, ?_, by simp, by simp, by simp⟩
    unfold setVerified
    exact List.mem_map.mpr ⟨row, hrow, by simp [h]⟩
  · refine ⟨row, ?_, rfl, rfl, fun hv => hv⟩
    unfold setVerified
    exact List.mem_map.mpr ⟨row, hrow, by simp [h]⟩

theorem setLanguage_stored (users : List UserRow) (uid : Int) (code : String) :
    ∀ row ∈ setLanguage users uid code, row.user_id = uid → row.language = some code := by
  intro row hrow hid
  unfold setLanguage at hrow
  obtain ⟨a, ha, hfa⟩ := List.mem_map.mp hrow
  subst hfa
  by_cases h : a.user_id = uid
  · simp [h]
  · simp only [beq_iff_eq, h, if_false] at hid

/-! ## handleCallback branch lemmas -/

theorem handleCallback_verify_users (env : Env) (oracle : Oracle) (db : DB)
    (cb : CallbackQuery) (h : cb.data = "verify_human") :
    (handleCallback env oracle db cb).db.users = setVerified db.users cb.from_user.id := by
  simp only [handleCallback, h, beq_self_eq_true, if_true]
  cases oracle (.answerCallbackQuery cb.id "Verified!") with
  | error e => rfl
  | ok r =>
    cases oracle (.editMessageText cb.from_user.id cb.message_message_id
      "✅ Verified successfully. Now please select your language.") with
    | error e => rfl
    | ok r2 => rfl

theorem handleCallback_lang_users (env : Env) (oracle : Oracle) (db : DB)
    (cb : CallbackQuery) (hne : cb.data ≠ "verify_human")
    (hsw : jsStartsWith cb.data "lang_" = true) :
    (handleCallback env oracle db cb).db.users
      = setLanguage db.users cb.from_user.id (extractLangCode cb.data) := by
  simp only [handleCallback, beq_iff_eq, if_neg hne, hsw, if_true]
  cases oracle (.answerCallbackQuery cb.id ("Language set to " ++ extractLangCode cb.data)) with
  | error e => rfl
  | ok r => rfl

theorem handleCallback_lang_edit (env : Env) (oracle : Oracle) (db : DB)
    (cb : CallbackQuery) (hne : cb.data ≠ "verify_human")
    (hsw : jsStartsWith cb.data "lang_" = true) :
    (handleCallback env oracle db cb).err = none →
      Event.tg (.editMessageText cb.from_user.id cb.message_message_id
        ("✅ Language set to "
          ++ (lookupLang (extractLangCode cb.data)).getD (extractLangCode cb.data)
          ++ ". You can now send messages.")) ∈ (handleCallback env oracle db cb).trace := by
  simp only [handleCallback, beq_iff_eq, if_neg hne, hsw, if_true]
  cases oracle (.answerCallbackQuery cb.id ("Language set to " ++ extractLangCode cb.data)) with
  | error e => intro h; simp at h
  | ok r => intro _; simp

/-! ## C7: verify_human idempotence and monotonicity -/

/-- C7.  Processing `verify_human` leaves the sender's rows with
`is_verified = true`; reprocessing the same event leaves the users table
exactly as after the first processing; and no row's language is changed nor
its verified flag regressed by the event. -/
theorem verify_human_idempotent (env : Env) (oracle : Oracle) (db : DB)
    (cb : CallbackQuery) (hdata : cb.data = "verify_human") :
    (∀ row ∈ (handleCallback env oracle db cb).db.users,
        row.user_id = cb.from_user.id → row.is_verified = true) ∧
    (handleCallback env oracle (handleCallback env oracle db cb).db cb).db.users
      = (handleCallback env oracle db cb).db.users ∧
    (∀ row ∈ db.users, ∃ row' ∈ (handleCallback env oracle db cb).db.users,
        row'.user_id = row.user_id ∧ row'.language = row.language ∧
        (row.is_verified = true → row'.is_verified = true)) := by
  have h1 := handleCallback_verify_users env oracle db cb hdata
  have h2 := handleCallback_verify_users env oracle (handleCallback env oracle db cb).db cb hdata
  refine ⟨?_, ?_, ?_⟩
  · rw [h1]
    exact setVerified_stored db.users cb.from_user.id
  · rw [h2, h1, setVerified_idem]
  · rw [h1]
    exact setVerified_preserves db.users cb.from_user.id

/-- Witness for C7 at a concrete database and oracle. -/
theorem verify_human_idempotent_witness :
    let env : Env := ⟨1, none, fun _ _ => none, 0⟩
    let oracle : Oracle := fun _ => .ok ⟨true, some 9, ""⟩
    let db : DB := ⟨[⟨99, none, "Bob", false, none, false, none, 0⟩], []⟩
    let cb : CallbackQuery := ⟨"cbid", ⟨99, none, "Bob"⟩, "verify_human", 3⟩
    (∀ row ∈ (handleCallback env oracle db cb).db.users,
        row.user_id = cb.from_user.id → row.is_verified = true) ∧
    (handleCallback env oracle (handleCallback env oracle db cb).db cb).db.users
      = (handleCallback env oracle db cb).db.users ∧
    (∀ row ∈ db.users, ∃ row' ∈ (handleCallback env oracle db cb).db.users,
        row'.user_id = row.user_id ∧ row'.language = row.language ∧
        (row.is_verified = true → row'.is_verified = true)) :=
  verify_human_idempotent _ _ _ _ rfl

/-! ## C9: select_language stores the code verbatim -/

/-- C9.  For a `select_language` callback carrying `code` (data
`lang_<code>`, the code itself underscore-free), the code is stored verbatim
— even when outside the supported table — and, when no call throws, the
confirmation shown to the user names the human-readable language when the
code is in `SUPPORTED_LANGS`, otherwise the raw code itself. -/
theorem select_language_verbatim (env : Env) (oracle : Oracle) (db : DB)
    (cb : CallbackQuery) (code : String)
    (hdata : cb.data = "lang_" ++ code) (hcode : '_' ∉ code.data) :
    (∀ row ∈ (handleCallback env oracle db cb).db.users,
        row.user_id = cb.from_user.id → row.language = some code) ∧
    ((handleCallback env oracle db cb).err = none →
      Event.tg (.editMessageText cb.from_user.id cb.message_message_id
        ("✅ Language set to " ++ (lookupLang code).getD code
          ++ ". You can now send messages.")) ∈ (handleCallback env oracle db cb).trace) := by
  have hne : cb.data ≠ "verify_human" := by
    rw [hdata]
    intro hcon
    have h2 : 'l' :: 'a' :: 'n' :: 'g' :: '_' :: code.data
        = ['v','e','r','i','f','y','_','h','u','m','a','n'] := congrArg String.data hcon
    injection h2 with h3 _
    exact absurd h3 (by decide)
  have hsw : jsStartsWith cb.data "lang_" = true := by
    rw [hdata]; exact jsStartsWith_append _ _
  have hextract : extractLangCode cb.data = code := by
    rw [hdata]; exact extractLangCode_plain code hcode
  constructor
  · have h1 := handleCallback_lang_users env oracle db cb hne hsw
    rw [h1, hextract]
    exact setLanguage_stored db.users cb.from_user.id code
  · have h1 := handleCallback_lang_edit env oracle db cb hne hsw
    rw [hextract] at h1
    exact h1

/-- Witness for C9: selecting `en` stores `"en"` and names "English". -/
theorem select_language_verbatim_witness :
    let env : Env := ⟨1, none, fun _ _ => none, 0⟩
    let oracle : Oracle := fun _ => .ok ⟨true, some 9, ""⟩
    let db : DB := ⟨[⟨99, none, "Bob", true, none, false, none, 0⟩], []⟩
    let cb : CallbackQuery := ⟨"cbid", ⟨99, none, "Bob"⟩, "lang_en", 3⟩
    (∀ row ∈ (handleCallback env oracle db cb).db.users,
        row.user_id = cb.from_user.id → row.language = some "en") ∧
    ((handleCallback env oracle db cb).err = none →
      Event.tg (.editMessageText cb.from_user.id cb.message_message_id
        ("✅ Language set to " ++ (lookupLang "en").getD "en"
          ++ ". You can now send messages.")) ∈ (handleCallback env oracle db cb).trace) :=
  select_language_verbatim _ _ _ _ "en" rfl (by decide)

/-! ## C10: underscore codes are truncated by the split -/

/-- C10.  The code is extracted as `data.split('_')[1]`: for an action string
`lang_<x>_<y>` (a code containing an underscore, e.g. `lang_zh_TW`) only the
part before the code's first underscore is stored — which always differs from
the full code. -/
theorem lang_code_underscore_truncated (env : Env) (oracle : Oracle) (db : DB)
    (cb : CallbackQuery) (x y : String)
    (hdata : cb.data = "lang_" ++ (x ++ "_" ++ y)) (hx : '_' ∉ x.data) :
    (∀ row ∈ (handleCallback env oracle db cb).db.users,
        row.user_id = cb.from_user.id → row.language = some x) ∧
    x ≠ x ++ "_" ++ y := by
  have hne : cb.data ≠ "verify_human" := by
    rw [hdata]
    intro hcon
    have h2 : 'l' :: 'a' :: 'n' :: 'g' :: '_' :: (x ++ "_" ++ y).data
        = ['v','e','r','i','f','y','_','h','u','m','a','n'] := congrArg String.data hcon
    injection h2 with h3 _
    exact absurd h3 (by decide)
  have hsw : jsStartsWith cb.data "lang_" = true := by
    rw [hdata]; exact jsStartsWith_append _ _
  have hextract : extractLangCode cb.data = x := by
    rw [hdata]; exact extractLangCode_underscore x y hx
  constructor
  · have h1 := handleCallback_lang_users env oracle db cb hne hsw
    rw [h1, hextract]
    exact setLanguage_stored db.users cb.from_user.id x
  · intro hcon
    have h2 : x.data.length = ((x.data ++ ['_']) ++ y.data).length :=
      congrArg (fun s : String => s.data.length) hcon
    simp only [List.length_append, List.length_singleton] at h2
    omega

/-! ## upsert and trace-target lemmas (for C1, C3) -/

theorem upsertUser_snd_existing (users : List UserRow) (user : TgUser) (now : Nat)
    (row : UserRow) (hrow : getUser users user.id = some row) :
    (upsertUser users user now).2 = .existing row := by
  unfold upsertUser
  simp only [hrow]
  by_cases h : (row.username != user.username || row.first_name != user.first_name) = true
  · rw [if_pos h]
  · rw [if_neg h]

theorem handlePrivateMessage_blocked (env : Env) (oracle : Oracle) (db : DB)
    (m : Message) (row : UserRow)
    (hrow : getUser db.users m.from_user.id = some row)
    (hblocked : row.is_blocked = true)
    (hne : m.from_user.id ≠ env.ADMIN_USER_ID) :
    (handlePrivateMessage env oracle db m).trace = [] := by
  simp only [handlePrivateMessage]
  rw [if_neg (by simp only [beq_iff_eq]; exact hne)]
  rw [upsertUser_snd_existing db.users m.from_user env.now row hrow]
  simp [UpsertResult.is_blocked, hblocked]

theorem handleStart_targets (env : Env) (oracle : Oracle) (db : DB) (m : Message) :
    ∀ e ∈ (handleStart env oracle db m).trace, e.target = some m.from_user.id := by
  intro e he
  simp only [handleStart] at he
  cases hg : getUser (upsertUser db.users m.from_user env.now).1 m.from_user.id with
  | none =>
    simp only [hg] at he
    simp at he
  | some userData =>
    simp only [hg] at he
    cases hv : userData.is_verified with
    | false =>
      simp [hv] at he
      subst he; rfl
    | true =>
      cases hl : jsTruthy userData.language with
      | false =>
        simp [hv, hl] at he
        subst he; rfl
      | true =>
        simp [hv, hl] at he
        subst he; rfl

theorem handleCallback_targets (env : Env) (oracle : Oracle) (db : DB)
    (cb : CallbackQuery) :
    ∀ e ∈ (handleCallback env oracle db cb).trace,
      e.target = some cb.from_user.id ∨ e.target = none := by
  intro e
  simp only [handleCallback]
  by_cases h1 : (cb.data == "verify_human") = true
  · rw [if_pos h1]
    cases oracle (.answerCallbackQuery cb.id "Verified!") with
    | error e2 =>
      intro he
      simp only [List.mem_singleton] at he
      subst he; right; rfl
    | ok r =>
      cases oracle (.editMessageText cb.from_user.id cb.message_message_id
          "✅ Verified successfully. Now please select your language.") with
      | error e2 =>
        intro he
        simp only [List.mem_cons, List.not_mem_nil, or_false] at he
        rcases he with rfl | rfl
        · right; rfl
        · left; rfl
      | ok r2 =>
        intro he
        simp only [List.mem_cons, List.not_mem_nil, or_false] at he
        rcases he with rfl | rfl | rfl
        · right; rfl
        · left; rfl
        · left; rfl
  · rw [if_neg h1]
    by_cases h2 : jsStartsWith cb.data "lang_" = true
    · rw [if_pos h2]
      cases oracle (.answerCallbackQuery cb.id ("Language set to " ++ extractLangCode cb.data)) with
      | error e2 =>
        intro he
        simp only [List.mem_singleton] at he
        subst he; right; rfl
      | ok r =>
        intro he
        simp only [List.mem_cons, List.not_mem_nil, or_false] at he
        rcases he with rfl | rfl
        · right; rfl
        · left; rfl
    · rw [if_neg h2]
      intro he
      simp at he

/-! ## C3: blocked-user exclusion -/

/-- C3 counterexample.  A blocked (unverified) user sending `/start` still
receives the verification prompt: `handleStart` never consults `is_blocked`,
so a guest-facing flow is triggered for a blocked user, contradicting the
claim that no prompt is produced. -/
theorem blocked_start_prompt_cex :
    (processUpdate ⟨1, none, fun _ _ => none, 5⟩ (fun _ => .ok ⟨true, some 500, ""⟩)
        ⟨[⟨99, some "bob", "Bob", false, none, true, some "t", 0⟩], []⟩
        (.message ⟨10, ⟨99, some "bob", "Bob"⟩, 99, some "/start", none,
          false, false, false, false, false, false, none⟩)).trace
      = [.tg (.sendMessage 99 "Please verify you are human by clicking the button below."
          (some [[⟨"✅ I am Human", "verify_human"⟩]]) none)] := by
  decide

/-- C3 amended.  Processing any inbound event from a blocked guest delivers
nothing to the admin's chat, and the plain private-message (relay) path
produces no outbound call at all; however `/start` and callback activations
still produce guest-facing prompts and acknowledgments, because only
`handlePrivateMessage` consults `is_blocked`. -/
theorem blocked_user_never_reaches_admin (env : Env) (oracle : Oracle) (db : DB)
    (u : TgUser) (row : UserRow)
    (hrow : getUser db.users u.id = some row)
    (hblocked : row.is_blocked = true)
    (hne : u.id ≠ env.ADMIN_USER_ID) :
    (∀ upd : Update, upd.sender = u →
      ∀ e ∈ (processUpdate env oracle db upd).trace, e.target ≠ some env.ADMIN_USER_ID) ∧
    (∀ m : Message, m.from_user = u →
      (handlePrivateMessage env oracle db m).trace = []) := by
  have hpm : ∀ m : Message, m.from_user = u →
      (handlePrivateMessage env oracle db m).trace = [] := by
    intro m hm
    exact handlePrivateMessage_blocked env oracle db m row (by rw [hm]; exact hrow)
      hblocked (by rw [hm]; exact hne)
  refine ⟨?_, hpm⟩
  intro upd hsender e he
  cases upd with
  | message m =>
    simp only [Update.sender] at hsender
    simp only [processUpdate] at he
    cases htext : m.text with
    | none =>
      simp only [htext] at he
      rw [hpm m hsender] at he
      exact absurd he (List.not_mem_nil e)
    | some t =>
      simp only [htext] at he
      by_cases hsw : jsStartsWith t "/start" = true
      · rw [if_pos hsw] at he
        have h3 := handleStart_targets env oracle db m e he
        rw [h3, hsender]
        intro hcon
        exact hne (Option.some.inj hcon)
      · rw [if_neg hsw] at he
        rw [hpm m hsender] at he
        exact absurd he (List.not_mem_nil e)
  | callback_query c =>
    simp only [Update.sender] at hsender
    simp only [processUpdate] at he
    rcases handleCallback_targets env oracle db c e he with h3 | h3
    · rw [h3, hsender]
      intro hcon
      exact hne (Option.some.inj hcon)
    · rw [h3]
      simp

/-- Witness for the amended C3 at a concrete blocked user. -/
theorem blocked_user_never_reaches_admin_witness :
    let env : Env := ⟨1, none, fun _ _ => none, 5⟩
    let oracle : Oracle := fun _ => .ok ⟨true, some 500, ""⟩
    let db : DB := ⟨[⟨99, some "bob", "Bob", false, none, true, some "t", 0⟩], []⟩
    let u : TgUser := ⟨99, some "bob", "Bob"⟩
    (∀ upd : Update, upd.sender = u →
      ∀ e ∈ (processUpdate env oracle db upd).trace, e.target ≠ some env.ADMIN_USER_ID) ∧
    (∀ m : Message, m.from_user = u →
      (handlePrivateMessage env oracle db m).trace = []) :=
  blocked_user_never_reaches_admin _ _ _ _
    ⟨99, some "bob", "Bob", false, none, true, some "t", 0⟩
    (by decide) rfl (by decide)

/-! ## C4: mapping persisted only after successful delivery -/

theorem recordIfSent_trace (env : Env) (db : DB) (trace : List Event)
    (sentMsg : Option Int) (userId guestMsgId : Int) :
    (recordIfSent env db trace sentMsg userId guestMsgId).trace = trace := by
  cases sentMsg <;> rfl

theorem relayToAdmin_messages (env : Env) (oracle : Oracle) (db : DB) (m : Message)
    (header lang : String) :
    (relayToAdmin env oracle db m header lang).db.messages = db.messages ∨
    ∃ c resp adminMsgId,
      Event.tg c ∈ (relayToAdmin env oracle db m header lang).trace ∧
      c.chatTarget = some env.ADMIN_USER_ID ∧
      oracle c = .ok resp ∧ resp.result = some adminMsgId ∧
      (relayToAdmin env oracle db m header lang).db.messages
        = saveMessageMapping db.messages adminMsgId m.from_user.id m.message_id env.now := by
  simp only [relayToAdmin]
  by_cases ht : jsTruthy m.text = true
  · rw [if_pos ht]
    cases ho : oracle (.sendMessage env.ADMIN_USER_ID
        (if (lang != "zh") = true then
          header ++ "\n\n" ++ m.text.getD "" ++ "\n\n<b>Translation:</b>\n"
            ++ translateText (m.text.getD "") "Chinese" env
        else header ++ "\n\n" ++ m.text.getD "") none none) with
    | error e => left; rfl
    | ok resp =>
      cases hr : resp.result with
      | none => left; simp [recordIfSent, hr]
      | some adminMsgId =>
        right
        refine ⟨.sendMessage env.ADMIN_USER_ID
            (if (lang != "zh") = true then
              header ++ "\n\n" ++ m.text.getD "" ++ "\n\n<b>Translation:</b>\n"
                ++ translateText (m.text.getD "") "Chinese" env
            else header ++ "\n\n" ++ m.text.getD "") none none,
          resp, adminMsgId, ?_, rfl, ho, hr, ?_⟩
        · rw [recordIfSent_trace]
          simp
        · simp [recordIfSent, hr, saveMessageMapping]
  · rw [if_neg ht]
    by_cases hm : m.isMedia = true
    · rw [if_pos hm]
      cases ho : oracle (.copyMessage env.ADMIN_USER_ID m.from_user.id m.message_id
          (some (buildCaption header m.caption))) with
      | error e => left; rfl
      | ok resp =>
        cases hr : resp.result with
        | none => left; simp [recordIfSent, hr]
        | some adminMsgId =>
          right
          refine ⟨.copyMessage env.ADMIN_USER_ID m.from_user.id m.message_id
              (some (buildCaption header m.caption)), resp, adminMsgId, ?_, rfl, ho, hr, ?_⟩
          · rw [recordIfSent_trace]
            simp
          · simp [recordIfSent, hr, saveMessageMapping]
    · rw [if_neg hm]
      cases ho : oracle (.sendMessage env.ADMIN_USER_ID header none none) with
      | error e => left; rfl
      | ok r =>
        cases ho2 : oracle (.copyMessage env.ADMIN_USER_ID m.from_user.id m.message_id none) with
        | error e => left; rfl
        | ok resp =>
          cases hr : resp.result with
          | none => left; simp [recordIfSent, hr]
          | some adminMsgId =>
            right
            refine ⟨.copyMessage env.ADMIN_USER_ID m.from_user.id m.message_id none,
              resp, adminMsgId, ?_, rfl, ho2, hr, ?_⟩
            · rw [recordIfSent_trace]
              simp
            · simp [recordIfSent, hr, saveMessageMapping]

/-- C4.  The `messages` table is written only when the payload delivery to
the admin returned a message: either the table is unchanged, or exactly one
mapping was appended whose key is the admin-side message id carried by the
successful response of an attempted call that targeted the admin's chat.  In
particular, when delivery fails at any step of the relay (a thrown call or a
response without a message), no mapping is recorded. -/
theorem mapping_only_after_delivery (env : Env) (oracle : Oracle) (db : DB)
    (m : Message) :
    (handlePrivateMessage env oracle db m).db.messages = db.messages ∨
    ∃ c resp adminMsgId,
      Event.tg c ∈ (handlePrivateMessage env oracle db m).trace ∧
      c.chatTarget = some env.ADMIN_USER_ID ∧
      oracle c = .ok resp ∧ resp.result = some adminMsgId ∧
      (handlePrivateMessage env oracle db m).db.messages
        = saveMessageMapping db.messages adminMsgId m.from_user.id m.message_id env.now := by
  simp only [handlePrivateMessage]
  by_cases hadm : (m.from_user.id == env.ADMIN_USER_ID) = true
  · rw [if_pos hadm]
    repeat' split
    all_goals exact Or.inl rfl
  · rw [if_neg hadm]
    by_cases hb : ((upsertUser db.users m.from_user env.now).2).is_blocked = true
    · rw [if_pos hb]
      left; rfl
    · rw [if_neg hb]
      by_cases hv : (!((upsertUser db.users m.from_user env.now).2).is_verified) = true
      · rw [if_pos hv]
        left; rfl
      · rw [if_neg hv]
        by_cases hl : (!(jsTruthy ((upsertUser db.users m.from_user env.now).2).language)) = true
        · rw [if_pos hl]
          left; rfl
        · rw [if_neg hl]
          exact relayToAdmin_messages env oracle
            { db with users := (upsertUser db.users m.from_user env.now).1 } m
            (relayHeader m.from_user (((upsertUser db.users m.from_user env.now).2).language.getD ""))
            (((upsertUser db.users m.from_user env.now).2).language.getD "")

/-! ## C1: translation gating -/

theorem handlePrivateMessage_ready (env : Env) (oracle : Oracle) (db : DB)
    (m : Message) (row : UserRow) (lang : String)
    (hne : m.from_user.id ≠ env.ADMIN_USER_ID)
    (hrow : getUser db.users m.from_user.id = some row)
    (hblocked : row.is_blocked = false) (hver : row.is_verified = true)
    (hlang : row.language = some lang) (hlangne : lang ≠ "") :
    handlePrivateMessage env oracle db m
      = relayToAdmin env oracle
          { db with users := (upsertUser db.users m.from_user env.now).1 } m
          (relayHeader m.from_user lang) lang := by
  simp only [handlePrivateMessage]
  rw [if_neg (by simp only [beq_iff_eq]; exact hne)]
  rw [upsertUser_snd_existing db.users m.from_user env.now row hrow]
  simp [UpsertResult.is_blocked, UpsertResult.is_verified, UpsertResult.language,
    hblocked, hver, hlang, jsTruthy, hlangne]

theorem relayToAdmin_text_trace (env : Env) (oracle : Oracle) (db : DB) (m : Message)
    (header lang originalText : String)
    (htext : m.text = some originalText) (htextne : originalText ≠ "") :
    (relayToAdmin env oracle db m header lang).trace
      = (if (lang != "zh") = true then [Event.translateRequest originalText "Chinese"] else [])
        ++ [Event.tg (.sendMessage env.ADMIN_USER_ID
            (if (lang != "zh") = true then
              header ++ "\n\n" ++ originalText ++ "\n\n<b>Translation:</b>\n"
                ++ translateText originalText "Chinese" env
            else header ++ "\n\n" ++ originalText) none none)] := by
  have ht : jsTruthy (some originalText) = true := by
    simp [jsTruthy, htextne]
  simp only [relayToAdmin, htext, ht, eq_self_iff_true, if_true, Option.getD_some]
  cases oracle (.sendMessage env.ADMIN_USER_ID
      (if (lang != "zh") = true then
        header ++ "\n\n" ++ originalText ++ "\n\n<b>Translation:</b>\n"
          ++ translateText originalText "Chinese" env
      else header ++ "\n\n" ++ originalText) none none) with
  | error e => rfl
  | ok resp => rw [recordIfSent_trace]

/-- C1 counterexample.  Translation credentials unset (`SILICONFLOW_API_KEY`
missing), guest language `en`: the message delivered to the admin is not
header plus original text only — a `Translation:` block repeating the
original is appended, extra content the claim forbids. -/
theorem translation_block_without_key_cex :
    (handlePrivateMessage ⟨1, none, fun _ _ => none, 5⟩ (fun _ => .ok ⟨true, some 500, ""⟩)
        ⟨[⟨7, some "g", "Guest", true, some "en", false, none, 0⟩], []⟩
        ⟨10, ⟨7, some "g", "Guest"⟩, 7, some "Hello", none,
          false, false, false, false, false, false, none⟩).trace
      = [.translateRequest "Hello" "Chinese",
         .tg (.sendMessage 1 (relayHeader ⟨7, some "g", "Guest"⟩ "en"
            ++ "\n\nHello\n\n<b>Translation:</b>\nHello") none none)] ∧
    relayHeader ⟨7, some "g", "Guest"⟩ "en" ++ "\n\nHello\n\n<b>Translation:</b>\nHello"
      ≠ relayHeader ⟨7, some "g", "Guest"⟩ "en" ++ "\n\nHello" := by
  constructor
  · decide
  · decide

/-- C1 amended.  For a relayed guest text message, the translation adapter is
invoked iff the stored language differs from `zh` (the hard-coded admin
reference language); with language `zh` the delivered text is header plus
original; otherwise a labeled `Translation:` block is appended below the
original; and when the translation service is unset the block's content is
the original text unchanged (so the delivered message is header plus original
plus a verbatim repetition, not header plus original alone). -/
theorem translation_gating (env : Env) (oracle : Oracle) (db : DB) (m : Message)
    (row : UserRow) (lang originalText : String)
    (hne : m.from_user.id ≠ env.ADMIN_USER_ID)
    (hrow : getUser db.users m.from_user.id = some row)
    (hblocked : row.is_blocked = false) (hver : row.is_verified = true)
    (hlang : row.language = some lang) (hlangne : lang ≠ "")
    (htext : m.text = some originalText) (htextne : originalText ≠ "") :
    ((∃ t tgt, Event.translateRequest t tgt ∈ (handlePrivateMessage env oracle db m).trace)
        ↔ lang ≠ "zh") ∧
    (lang = "zh" →
      (handlePrivateMessage env oracle db m).trace
        = [Event.tg (.sendMessage env.ADMIN_USER_ID
            (relayHeader m.from_user lang ++ "\n\n" ++ originalText) none none)]) ∧
    (lang ≠ "zh" →
      (handlePrivateMessage env oracle db m).trace
        = [Event.translateRequest originalText "Chinese",
           Event.tg (.sendMessage env.ADMIN_USER_ID
            (relayHeader m.from_user lang ++ "\n\n" ++ originalText
              ++ "\n\n<b>Translation:</b>\n" ++ translateText originalText "Chinese" env)
            none none)]) ∧
    (env.SILICONFLOW_API_KEY = none → translateText originalText "Chinese" env = originalText) := by
  have hred := handlePrivateMessage_ready env oracle db m row lang hne hrow hblocked hver hlang hlangne
  have htr := relayToAdmin_text_trace env oracle
    { db with users := (upsertUser db.users m.from_user env.now).1 } m
    (relayHeader m.from_user lang) lang originalText htext htextne
  rw [hred, htr]
  have hkey : env.SILICONFLOW_API_KEY = none → translateText originalText "Chinese" env = originalText := by
    intro hk
    simp [translateText, hk]
  by_cases hz : lang = "zh"
  · have hzb : (lang != "zh") = false := by simp [hz]
    rw [hzb]
    simp only [Bool.false_eq_true, if_false, List.nil_append]
    refine ⟨?_, fun _ => trivial, fun hcon => absurd hz hcon, hkey⟩
    constructor
    · rintro ⟨t, tgt, hmem⟩
      simp at hmem
    · intro hcon
      exact absurd hz hcon
  · have hzb : (lang != "zh") = true := by simpa using hz
    rw [hzb]
    simp only [if_true, List.singleton_append]
    refine ⟨?_, fun hcon => absurd hcon hz, fun _ => trivial, hkey⟩
    constructor
    · intro _
      exact hz
    · intro _
      exact ⟨originalText, "Chinese", by simp⟩

/-- Witness for the amended C1 at a concrete ready guest. -/
theorem translation_gating_witness :
    let env : Env := ⟨1, none, fun _ _ => none, 5⟩
    let oracle : Oracle := fun _ => .ok ⟨true, some 500, ""⟩
    let db : DB := ⟨[⟨7, some "g", "Guest", true, some "en", false, none, 0⟩], []⟩
    let m : Message := ⟨10, ⟨7, some "g", "Guest"⟩, 7, some "Hello", none,
      false, false, false, false, false, false, none⟩
    ((∃ t tgt, Event.translateRequest t tgt ∈ (handlePrivateMessage env oracle db m).trace)
        ↔ ("en" : String) ≠ "zh") ∧
    (("en" : String) = "zh" →
      (handlePrivateMessage env oracle db m).trace
        = [Event.tg (.sendMessage env.ADMIN_USER_ID
            (relayHeader m.from_user "en" ++ "\n\n" ++ "Hello") none none)]) ∧
    (("en" : String) ≠ "zh" →
      (handlePrivateMessage env oracle db m).trace
        = [Event.translateRequest "Hello" "Chinese",
           Event.tg (.sendMessage env.ADMIN_USER_ID
            (relayHeader m.from_user "en" ++ "\n\n" ++ "Hello"
              ++ "\n\n<b>Translation:</b>\n" ++ translateText "Hello" "Chinese" env)
            none none)]) ∧
    (env.SILICONFLOW_API_KEY = none → translateText "Hello" "Chinese" env = "Hello") :=
  translation_gating _ _ _ _ ⟨7, some "g", "Guest", true, some "en", false, none, 0⟩ "en" "Hello"
    (by decide) (by decide) rfl rfl rfl (by decide) rfl (by decide)

/-! ## C8: admin reply routing -/

/-- C8 counterexample.  An admin reply whose copy-forward fails at the API
level (a response with `ok: false`, e.g. "bot was blocked by the user" —
which `fetch` returns normally rather than throwing) is acknowledged with
"✅ Reply sent.": the admin is not notified of the delivery failure, because
the response body of `copyMessage` is never inspected on the reply path. -/
theorem reply_failure_acknowledged_cex :
    (handlePrivateMessage ⟨1, none, fun _ _ => none, 5⟩
        (fun c => match c with
          | .copyMessage _ _ _ _ => .ok ⟨false, none, "Forbidden: bot was blocked by the user"⟩
          | _ => .ok ⟨true, some 600, ""⟩)
        ⟨[], [⟨55, 7, 10, 0⟩]⟩
        ⟨20, ⟨1, none, "Admin"⟩, 1, some "reply text", none,
          false, false, false, false, false, false, some 55⟩).trace
      = [.tg (.copyMessage 7 1 20 none),
         .tg (.sendMessage 1 "✅ Reply sent." none (some 20))] := by
  decide

/-- C8 amended.  For an admin reply: when no mapping resolves the replied-to
id, the admin is sent the could-not-find notice; when resolution succeeds,
the reply is copy-forwarded to the resolved guest id, a thrown forward
produces the failure notice carrying the thrown reason, and any returned
response — including an API-level failure body — produces the sent
acknowledgment. -/
theorem admin_reply_routing (env : Env) (oracle : Oracle) (db : DB) (m : Message)
    (replyId : Int)
    (hadmin : m.from_user.id = env.ADMIN_USER_ID)
    (hreply : m.reply_to_message_id = some replyId) :
    (getOriginalSender db.messages replyId = none →
      (handlePrivateMessage env oracle db m).trace
        = [.tg (.sendMessage env.ADMIN_USER_ID
            "⚠️ Could not find original sender for this message (maybe too old)."
            none (some m.message_id))]) ∧
    (∀ uid gid, getOriginalSender db.messages replyId = some (uid, gid) →
      Event.tg (.copyMessage uid m.chat_id m.message_id none)
          ∈ (handlePrivateMessage env oracle db m).trace ∧
      (∀ e, oracle (.copyMessage uid m.chat_id m.message_id none) = .error e →
        Event.tg (.sendMessage env.ADMIN_USER_ID ("❌ Failed to send: " ++ e)
          none (some m.message_id)) ∈ (handlePrivateMessage env oracle db m).trace) ∧
      (∀ resp, oracle (.copyMessage uid m.chat_id m.message_id none) = .ok resp →
        Event.tg (.sendMessage env.ADMIN_USER_ID "✅ Reply sent." none (some m.message_id))
          ∈ (handlePrivateMessage env oracle db m).trace)) := by
  simp only [handlePrivateMessage]
  rw [if_pos (by simp only [beq_iff_eq]; exact hadmin), hreply]
  constructor
  · intro hnone
    simp only [hnone]
  · intro uid gid hsome
    simp only [hsome]
    cases oracle (.copyMessage uid m.chat_id m.message_id none) with
    | error e =>
      refine ⟨by simp, ?_, ?_⟩
      · intro e2 he2
        injection he2 with he3
        subst he3
        simp
      · intro resp hresp
        exact absurd hresp (by simp)
    | ok r =>
      cases oracle (.sendMessage env.ADMIN_USER_ID "✅ Reply sent." none (some m.message_id)) with
      | error e2 =>
        refine ⟨by simp, ?_, ?_⟩
        · intro e3 he3
          exact absurd he3 (by simp)
        · intro resp hresp
          simp
      | ok r2 =>
        refine ⟨by simp, ?_, ?_⟩
        · intro e3 he3
          exact absurd he3 (by simp)
        · intro resp hresp
          simp

/-- Witness for the amended C8 at a concrete reply with a recorded mapping. -/
theorem admin_reply_routing_witness :
    let env : Env := ⟨1, none, fun _ _ => none, 5⟩
    let oracle : Oracle := fun _ => .ok ⟨true, some 600, ""⟩
    let db : DB := ⟨[], [⟨55, 7, 10, 0⟩]⟩
    let m : Message := ⟨20, ⟨1, none, "Admin"⟩, 1, some "reply text", none,
      false, false, false, false, false, false, some 55⟩
    (getOriginalSender db.messages 55 = none →
      (handlePrivateMessage env oracle db m).trace
        = [.tg (.sendMessage env.ADMIN_USER_ID
            "⚠️ Could not find original sender for this message (maybe too old)."
            none (some m.message_id))]) ∧
    (∀ uid gid, getOriginalSender db.messages 55 = some (uid, gid) →
      Event.tg (.copyMessage uid m.chat_id m.message_id none)
          ∈ (handlePrivateMessage env oracle db m).trace ∧
      (∀ e, oracle (.copyMessage uid m.chat_id m.message_id none) = .error e →
        Event.tg (.sendMessage env.ADMIN_USER_ID ("❌ Failed to send: " ++ e)
          none (some m.message_id)) ∈ (handlePrivateMessage env oracle db m).trace) ∧
      (∀ resp, oracle (.copyMessage uid m.chat_id m.message_id none) = .ok resp →
        Event.tg (.sendMessage env.ADMIN_USER_ID "✅ Reply sent." none (some m.message_id))
          ∈ (handlePrivateMessage env oracle db m).trace)) :=
  admin_reply_routing _ _ _ _ 55 rfl rfl

/-- Witness for C10: `lang_zh_TW` stores `"zh"`, not `"zh_TW"`. -/
theorem lang_code_underscore_truncated_witness :
    let env : Env := ⟨1, none, fun _ _ => none, 0⟩
    let oracle : Oracle := fun _ => .ok ⟨true, some 9, ""⟩
    let db : DB := ⟨[⟨99, none, "Bob", true, none, false, none, 0⟩], []⟩
    let cb : CallbackQuery := ⟨"cbid", ⟨99, none, "Bob"⟩, "lang_zh_TW", 3⟩
    (∀ row ∈ (handleCallback env oracle db cb).db.users,
        row.user_id = cb.from_user.id → row.language = some "zh") ∧
    "zh" ≠ "zh" ++ "_" ++ "TW" :=
  lang_code_underscore_truncated _ _ _ _ "zh" "TW" rfl (by decide)

end TgBot
